import Mathlib

/-!
Verification of the `rss_to_notion.py` content pipeline: a shallow embedding of
the script's text chunking, markdown block compiler, HTML sanitizer, date
conversion, child-block replacement, and the per-entry upsert loop, together
with theorems about the specified properties.

Strings are modelled as `List Char` (Python `str` indexing is by code point).
Whitespace and line-break predicates are modelled over the ASCII range that the
Python `str.strip` / `str.splitlines` methods recognise.
-/

set_option maxHeartbeats 1000000

deriving instance DecidableEq for Except

namespace RssNotion

/-- Python `str.isspace`-style whitespace characters (ASCII range used by
`str.strip()` with no arguments). -/
def pyIsSpace (c : Char) : Bool :=
  c == ' ' || c == '\t' || c == '\n' || c == '\r' || c == '\x0b' || c == '\x0c'

/-- Python line-break characters recognised by `str.splitlines` (ASCII range). -/
def isLineBreak (c : Char) : Bool :=
  c == '\n' || c == '\r' || c == '\x0b' || c == '\x0c'

/-- Python `s.strip()`: drop leading and trailing whitespace. -/
def pyStrip (l : List Char) : List Char :=
  ((l.dropWhile pyIsSpace).reverse.dropWhile pyIsSpace).reverse

/-- Python `s.rstrip("\n")`: drop trailing newline characters only. -/
def rstripNl (l : List Char) : List Char :=
  (l.reverse.dropWhile (fun c => c == '\n')).reverse

/-- Accumulator pass for `str.splitlines` (ASCII line breaks, `\r\n` counted
as a single break). The accumulator holds the current line reversed. -/
def pySplitlinesAux : List Char → List Char → List (List Char)
  | acc, [] => [acc.reverse]
  | acc, '\r' :: '\n' :: rest =>
      acc.reverse :: (if rest.isEmpty then [] else pySplitlinesAux [] rest)
  | acc, c :: rest =>
      if isLineBreak c then
        acc.reverse :: (if rest.isEmpty then [] else pySplitlinesAux [] rest)
      else
        pySplitlinesAux (c :: acc) rest

/-- Python `str.splitlines`: empty string gives no lines; terminators are not
kept; a trailing terminator does not create an empty final line. -/
def pySplitlines (s : List Char) : List (List Char) :=
  if s.isEmpty then [] else pySplitlinesAux [] s

/-- Fuel-driven fixed-size chunking shared by `chunk_text` and `_chunk_blocks`
(Python `for idx in range(0, len(xs), size): yield xs[idx : idx + size]`).
The fuel is initialised to the list length, which bounds the iteration count. -/
def chunkListGo {α : Type} : Nat → List α → Nat → List (List α)
  | 0, _, _ => []
  | fuel + 1, xs, size =>
      if xs.isEmpty || size == 0 then []
      else xs.take size :: chunkListGo fuel (xs.drop size) size

/-- `chunk_text(text, chunk_size=1900)`: split a string into consecutive
fixed-size slices. -/
def chunk_text (text : List Char) (chunk_size : Nat) : List (List Char) :=
  chunkListGo text.length text chunk_size

/-- `to_rich_text(text, chunk_size=1900)`: one rich-text run per chunk; the
model keeps the `content` payload of each run. The default chunk size 1900 is
applied, as at every call site of the script. -/
def to_rich_text (text : List Char) : List (List Char) :=
  chunk_text text 1900

lemma chunkListGo_flatten {α : Type} :
    ∀ (fuel : Nat) (xs : List α) (size : Nat), xs.length ≤ fuel → 0 < size →
      (chunkListGo fuel xs size).flatten = xs := by
  intro fuel
  induction fuel with
  | zero =>
      intro xs size hlen _
      have hx : xs = [] := List.length_eq_zero.mp (Nat.le_zero.mp hlen)
      subst hx
      simp [chunkListGo]
  | succ n ih =>
      intro xs size hlen hsize
      by_cases hxs : xs = []
      · subst hxs
        simp [chunkListGo]
      · have h1 : xs.isEmpty = false := by
          cases xs with
          | nil => exact absurd rfl hxs
          | cons a t => rfl
        have h2 : (size == 0) = false := by
          have : size ≠ 0 := Nat.pos_iff_ne_zero.mp hsize
          simp [this]
        have hdrop : (xs.drop size).length ≤ n := by
          have hx0 : 0 < xs.length := List.length_pos.mpr hxs
          simp only [List.length_drop]
          omega
        have hrec := ih (xs.drop size) size hdrop hsize
        simp [chunkListGo, h1, h2, hrec]

lemma chunkListGo_length_le {α : Type} :
    ∀ (fuel : Nat) (xs : List α) (size : Nat) (c : List α),
      c ∈ chunkListGo fuel xs size → c.length ≤ size := by
  intro fuel
  induction fuel with
  | zero =>
      intro xs size c hc
      simp [chunkListGo] at hc
  | succ n ih =>
      intro xs size c hc
      by_cases hguard : xs.isEmpty || size == 0
      · simp [chunkListGo, hguard] at hc
      · simp only [chunkListGo, hguard, Bool.false_eq_true, if_false, List.mem_cons] at hc
        rcases hc with h | h
        · subst h
          simp
        · exact ih _ _ _ h

lemma chunk_text_flatten (t : List Char) : (chunk_text t 1900).flatten = t :=
  chunkListGo_flatten t.length t 1900 (le_refl _) (by omega)

lemma chunk_text_length_le (t c : List Char) (hc : c ∈ chunk_text t 1900) :
    c.length ≤ 1900 :=
  chunkListGo_length_le t.length t 1900 c hc

/-- Claim C1: for every string passed to `chunk_text` with the default maximum
chunk size 1900 (as used by `to_rich_text`), every emitted TextRun chunk has
length at most 1900, and the concatenation of all emitted chunks, in order,
equals the original string. -/
theorem chunking_bounded_and_lossless (t : List Char) :
    (∀ run ∈ to_rich_text t, run.length ≤ 1900) ∧ (to_rich_text t).flatten = t := by
  constructor
  · intro run hrun
    exact chunk_text_length_le t run hrun
  · exact chunk_text_flatten t

/-- Witness for C1: evaluation at the concrete string "hello", whose single
chunk is the string itself. -/
theorem chunking_bounded_and_lossless_witness :
    ("hello".toList).length ≤ 1900 ∧
    (to_rich_text ("hello".toList)).flatten = "hello".toList :=
  ⟨(chunking_bounded_and_lossless ("hello".toList)).1 ("hello".toList) (by decide),
   (chunking_bounded_and_lossless ("hello".toList)).2⟩

/-! ## The block data model and `markdown_to_blocks` line scanner -/

/-- A Notion document block as built by the `_*_block` helpers: a tagged
variant carrying the `rich_text` chunk payloads (and a language for code). -/
inductive Block where
  | paragraph (rich_text : List (List Char))
  | heading (level : Nat) (rich_text : List (List Char))
  | bulleted_list_item (rich_text : List (List Char))
  | numbered_list_item (rich_text : List (List Char))
  | quote (rich_text : List (List Char))
  | code (rich_text : List (List Char)) (language : List Char)
deriving DecidableEq, Repr

/-- The default code-block language string "plain text". -/
def plainText : List Char := "plain text".toList

/-- `_paragraph_block(text)`. -/
def _paragraph_block (text : List Char) : Block :=
  Block.paragraph (to_rich_text text)

/-- `_heading_block(level, text)`: the level is clamped to 1..3. -/
def _heading_block (level : Nat) (text : List Char) : Block :=
  Block.heading (min (max level 1) 3) (to_rich_text text)

/-- `_list_item_block(block_type, text)` for the two list block types used. -/
def _list_item_block (block_type : List Char) (text : List Char) : Block :=
  if block_type = ("numbered_list_item").toList then
    Block.numbered_list_item (to_rich_text text)
  else
    Block.bulleted_list_item (to_rich_text text)

/-- `_quote_block(text)`. -/
def _quote_block (text : List Char) : Block :=
  Block.quote (to_rich_text text)

/-- `_code_block(text, language)`: empty language falls back to "plain text"
(Python `language or "plain text"`). -/
def _code_block (text : List Char) (language : List Char) : Block :=
  Block.code (to_rich_text text) (if language.isEmpty then plainText else language)

/-- The scanner state of `markdown_to_blocks`: emitted blocks plus the
paragraph and code accumulation buffers. -/
structure ScanState where
  blocks : List Block
  paragraph_buffer : List (List Char)
  code_buffer : List (List Char)
  in_code : Bool
  code_language : List Char
deriving DecidableEq, Repr

/-- The initial scanner state. -/
def initState : ScanState :=
  ⟨[], [], [], false, plainText⟩

/-- The code fence marker. -/
def fenceMarker : List Char := "```".toList

/-- The backtick character, recovered from the fence marker string. -/
def backtick : Char := fenceMarker.headD ' '

/-- Python `" ".join(buf)`. -/
def joinSpace (bufs : List (List Char)) : List Char :=
  List.intercalate [' '] bufs

/-- Python `"\n".join(buf)`. -/
def joinNl (bufs : List (List Char)) : List Char :=
  List.intercalate ['\n'] bufs

/-- `flush_paragraph()`: join buffered lines with spaces, strip, and emit one
paragraph block when non-empty; the buffer is cleared. -/
def flushParagraph (st : ScanState) : ScanState :=
  if st.paragraph_buffer.isEmpty then st
  else
    let paragraph_text := pyStrip (joinSpace st.paragraph_buffer)
    { st with
        paragraph_buffer := [],
        blocks := st.blocks ++
          (if paragraph_text.isEmpty then [] else [_paragraph_block paragraph_text]) }

/-- `flush_code()`: join buffered raw lines with newlines, strip trailing
newlines, and emit one code block when non-empty; leaves code mode. -/
def flushCode (st : ScanState) : ScanState :=
  if st.code_buffer.isEmpty then { st with in_code := false }
  else
    let code_text := rstripNl (joinNl st.code_buffer)
    { st with
        code_buffer := [],
        in_code := false,
        blocks := st.blocks ++
          (if code_text.isEmpty then [] else [_code_block code_text st.code_language]) }

/-- The language token of an opening fence line: `stripped.strip("`").strip()
or "plain text"`. -/
def fence_language (stripped : List Char) : List Char :=
  let langRaw :=
    pyStrip (((stripped.dropWhile (fun c => c == backtick)).reverse.dropWhile
      (fun c => c == backtick)).reverse)
  if langRaw.isEmpty then plainText else langRaw

/-- The heading regex `^(#{1,6})\s+(.*)$` applied to an already-stripped line:
returns the number of leading `#` characters (1..6) and the remainder after
the whitespace run (regex group 2). A run of 7 or more `#` never matches. -/
def headingMatch (stripped : List Char) : Option (Nat × List Char) :=
  let k := (stripped.takeWhile (fun c => c == '#')).length
  if 1 ≤ k ∧ k ≤ 6 then
    match stripped.drop k with
    | [] => none
    | c :: rest =>
        if pyIsSpace c then some (k, (c :: rest).dropWhile pyIsSpace) else none
  else none

/-- The bullet regex `^[-*]\s+` applied to a stripped line. -/
def bulletMatch (stripped : List Char) : Bool :=
  match stripped with
  | c :: c2 :: _ => (c == '-' || c == '*') && pyIsSpace c2
  | _ => false

/-- The ordered-list regex `^\d+\.\s+` applied to a stripped line. -/
def numberMatch (stripped : List Char) : Bool :=
  let ds := stripped.takeWhile Char.isDigit
  if ds.isEmpty then false
  else
    match stripped.drop ds.length with
    | '.' :: c :: _ => pyIsSpace c
    | _ => false

/-- The remainder of an ordered-list line after `re.sub(r"^\d+\.\s+", "", ...)`:
digits, the dot and the following whitespace run removed. -/
def numberRest (stripped : List Char) : List Char :=
  ((stripped.drop ((stripped.takeWhile Char.isDigit).length + 1)).dropWhile pyIsSpace)

/-- One iteration of the `for raw_line in markdown.splitlines()` loop of
`markdown_to_blocks`. -/
def processLine (st : ScanState) (raw_line : List Char) : ScanState :=
  let line := rstripNl raw_line
  if st.in_code then
    if fenceMarker.isPrefixOf (pyStrip line) then flushCode st
    else { st with code_buffer := st.code_buffer ++ [raw_line] }
  else
    let stripped := pyStrip line
    if stripped.isEmpty then flushParagraph st
    else if fenceMarker.isPrefixOf stripped then
      let st1 := flushParagraph st
      { st1 with in_code := true, code_language := fence_language stripped,
                 code_buffer := [] }
    else
      match headingMatch stripped with
      | some (k, g2) =>
          let st1 := flushParagraph st
          let content := pyStrip g2
          if content.isEmpty then st1
          else { st1 with blocks := st1.blocks ++ [_heading_block (min k 3) content] }
      | none =>
          if bulletMatch stripped then
            let st1 := flushParagraph st
            let content := pyStrip ((stripped.drop 1).dropWhile pyIsSpace)
            if content.isEmpty then st1
            else { st1 with blocks :=
                    st1.blocks ++ [_list_item_block ("bulleted_list_item").toList content] }
          else if numberMatch stripped then
            let st1 := flushParagraph st
            let content := pyStrip (numberRest stripped)
            if content.isEmpty then st1
            else { st1 with blocks :=
                    st1.blocks ++ [_list_item_block ("numbered_list_item").toList content] }
          else if stripped.head? = some '>' then
            let st1 := flushParagraph st
            let content := pyStrip (stripped.dropWhile (fun c => c == '>'))
            if content.isEmpty then st1
            else { st1 with blocks := st1.blocks ++ [_quote_block content] }
          else { st with paragraph_buffer := st.paragraph_buffer ++ [stripped] }

/-- End-of-input flushes: an open code buffer, then the paragraph buffer. -/
def finishScan (st : ScanState) : List Block :=
  (flushParagraph (if st.in_code then flushCode st else st)).blocks

/-- The blocks produced by the line scan alone (before the empty-result
fallback of `markdown_to_blocks`). -/
def scan_blocks (markdown : List Char) : List Block :=
  finishScan ((pySplitlines markdown).foldl processLine initState)

/-- `markdown_to_blocks(markdown)`: empty input gives no blocks; otherwise the
line scan runs, and a scan producing no blocks falls back to one paragraph
block holding the stripped input. -/
def markdown_to_blocks (markdown : List Char) : List Block :=
  if markdown.isEmpty then []
  else
    let blocks := scan_blocks markdown
    if blocks.isEmpty then [_paragraph_block (pyStrip markdown)] else blocks

/-! ## Empty and whitespace-only inputs (claims C4 and C10) -/

lemma mem_pySplitlinesAux (acc s : List Char) :
    ∀ l ∈ pySplitlinesAux acc s, ∀ c ∈ l, c ∈ acc ∨ c ∈ s := by
  induction acc, s using pySplitlinesAux.induct with
  | case1 acc =>
      intro l hl c hc
      simp only [pySplitlinesAux, List.mem_singleton] at hl
      subst hl
      exact Or.inl (List.mem_reverse.mp hc)
  | case2 acc rest ih =>
      intro l hl c hc
      simp only [pySplitlinesAux, List.mem_cons] at hl
      rcases hl with hl | hl
      · subst hl
        exact Or.inl (List.mem_reverse.mp hc)
      · by_cases hrest : rest.isEmpty
        · simp [hrest] at hl
        · simp only [hrest, if_false] at hl
          rcases ih l hl c hc with h | h
          · simp at h
          · exact Or.inr (by simp [h])
  | case3 acc ch rest hne hbr ih =>
      intro l hl c hc
      simp only [pySplitlinesAux, hbr, if_true] at hl
      rcases List.mem_cons.mp hl with hl | hl
      · subst hl
        exact Or.inl (List.mem_reverse.mp hc)
      · by_cases hrest : rest.isEmpty
        · simp [hrest] at hl
        · simp only [hrest, if_false] at hl
          rcases ih l hl c hc with h | h
          · simp at h
          · exact Or.inr (by simp [h])
  | case4 acc ch rest hne hbr ih =>
      intro l hl c hc
      have hstep : pySplitlinesAux acc (ch :: rest) = pySplitlinesAux (ch :: acc) rest := by
        rw [pySplitlinesAux.eq_3 acc ch rest hne]
        simp [hbr]
      rw [hstep] at hl
      rcases ih l hl c hc with h | h
      · rcases List.mem_cons.mp h with h | h
        · exact Or.inr (by simp [h])
        · exact Or.inl h
      · exact Or.inr (by simp [h])

lemma mem_pySplitlines (s l : List Char) (hl : l ∈ pySplitlines s) :
    ∀ c ∈ l, c ∈ s := by
  intro c hc
  unfold pySplitlines at hl
  by_cases hs : s.isEmpty
  · simp [hs] at hl
  · simp only [hs, if_false] at hl
    rcases mem_pySplitlinesAux [] s l hl c hc with h | h
    · simp at h
    · exact h

lemma pyStrip_eq_nil_of_all_space (l : List Char)
    (h : ∀ c ∈ l, pyIsSpace c = true) : pyStrip l = [] := by
  unfold pyStrip
  rw [List.dropWhile_eq_nil_iff.mpr h]
  simp

lemma mem_rstripNl (l : List Char) (c : Char) (hc : c ∈ rstripNl l) : c ∈ l := by
  unfold rstripNl at hc
  have := List.mem_reverse.mp hc
  exact List.mem_reverse.mp (List.Sublist.mem this (List.dropWhile_sublist _))

lemma processLine_blank (st : ScanState) (raw : List Char)
    (hin : st.in_code = false) (hbuf : st.paragraph_buffer = [])
    (hstr : pyStrip (rstripNl raw) = []) : processLine st raw = st := by
  unfold processLine
  rw [hin]
  simp only [Bool.false_eq_true, if_false, hstr, List.isEmpty_nil, if_true]
  unfold flushParagraph
  rw [hbuf]
  simp

lemma foldl_processLine_blank (lines : List (List Char))
    (h : ∀ l ∈ lines, pyStrip (rstripNl l) = []) :
    lines.foldl processLine initState = initState := by
  induction lines with
  | nil => rfl
  | cons l rest ih =>
      have h1 : processLine initState l = initState :=
        processLine_blank initState l rfl rfl (h l (List.mem_cons_self l rest))
      simp only [List.foldl_cons, h1]
      exact ih fun x hx => h x (List.mem_cons_of_mem l hx)

lemma all_space_line (s l : List Char) (hall : ∀ c ∈ s, pyIsSpace c = true)
    (hl : l ∈ pySplitlines s) : pyStrip (rstripNl l) = [] :=
  pyStrip_eq_nil_of_all_space _ fun c hc =>
    hall c (mem_pySplitlines s l hl c (mem_rstripNl l c hc))

lemma scan_blocks_all_space (s : List Char)
    (hall : ∀ c ∈ s, pyIsSpace c = true) : scan_blocks s = [] := by
  unfold scan_blocks
  rw [foldl_processLine_blank _ (fun l hl => all_space_line s l hall hl)]
  rfl

lemma whitespace_markdown_fallback (s : List Char) (hne : s ≠ [])
    (hall : ∀ c ∈ s, pyIsSpace c = true) :
    markdown_to_blocks s = [_paragraph_block (pyStrip s)] := by
  have hscan := scan_blocks_all_space s hall
  unfold markdown_to_blocks
  rw [hscan]
  simp [hne]

/-- Claim C4: compiling the empty string yields no blocks; compiling a
whitespace-only non-empty string yields exactly one paragraph block holding
the stripped input; and in general, whenever the line scan yields zero blocks
for a non-empty input, exactly one paragraph block holding the stripped input
is emitted. -/
theorem empty_and_whitespace_fallback :
    markdown_to_blocks [] = [] ∧
    (∀ s : List Char, s ≠ [] → (∀ c ∈ s, pyIsSpace c = true) →
      markdown_to_blocks s = [_paragraph_block (pyStrip s)]) ∧
    (∀ s : List Char, s ≠ [] → scan_blocks s = [] →
      markdown_to_blocks s = [_paragraph_block (pyStrip s)]) := by
  refine ⟨rfl, ?_, ?_⟩
  · intro s hne hall
    exact whitespace_markdown_fallback s hne hall
  · intro s hne hscan
    unfold markdown_to_blocks
    rw [hscan]
    simp [hne]

/-- Witness for C4 at the whitespace-only input consisting of one space and at
an input whose scan yields zero blocks. -/
theorem empty_and_whitespace_fallback_witness :
    markdown_to_blocks (" ".toList) = [_paragraph_block (pyStrip (" ".toList))] ∧
    markdown_to_blocks ("\t\n".toList) = [_paragraph_block (pyStrip ("\t\n".toList))] :=
  ⟨(empty_and_whitespace_fallback.2.1) (" ".toList) (by decide) (by decide),
   (empty_and_whitespace_fallback.2.2) ("\t\n".toList) (by decide) (by decide)⟩

/-- Claim C10: for every whitespace-only non-empty markdown input, the single
fallback paragraph block carries an empty sequence of TextRuns, because
chunking the empty string yields no chunks. -/
theorem whitespace_fallback_paragraph_empty_runs :
    (∀ s : List Char, s ≠ [] → (∀ c ∈ s, pyIsSpace c = true) →
      markdown_to_blocks s = [Block.paragraph []]) ∧
    to_rich_text [] = [] ∧ chunk_text [] 1900 = [] := by
  refine ⟨?_, rfl, rfl⟩
  intro s hne hall
  have h := whitespace_markdown_fallback s hne hall
  rw [h, pyStrip_eq_nil_of_all_space s hall]
  rfl

/-- Witness for C10 at the whitespace-only input of two spaces. -/
theorem whitespace_fallback_paragraph_empty_runs_witness :
    markdown_to_blocks ("  ".toList) = [Block.paragraph []] :=
  (whitespace_fallback_paragraph_empty_runs.1) ("  ".toList) (by decide) (by decide)

/-! ## Heading clamping (claim C6) -/

lemma headingMatch_bounds (s : List Char) (k : Nat) (g2 : List Char)
    (hm : headingMatch s = some (k, g2)) : 1 ≤ k ∧ k ≤ 6 := by
  simp only [headingMatch] at hm
  split at hm
  · split at hm
    · exact absurd hm (by simp)
    · split at hm
      · simp only [Option.some.injEq, Prod.mk.injEq] at hm
        obtain ⟨h1, _⟩ := hm
        subst h1
        assumption
      · exact absurd hm (by simp)
  · exact absurd hm (by simp)

lemma headingMatch_head (s : List Char) (k : Nat) (g2 : List Char)
    (hm : headingMatch s = some (k, g2)) : ∃ t, s = '#' :: t := by
  cases s with
  | nil => exact absurd hm (by simp [headingMatch])
  | cons c t =>
      by_cases hc : c = '#'
      · exact ⟨t, by rw [hc]⟩
      · have hcb : (c == '#') = false := by simp [hc]
        have h0 : ((c :: t).takeWhile (fun x => x == '#')).length = 0 := by
          simp [List.takeWhile, hcb]
        unfold headingMatch at hm
        rw [h0] at hm
        simp at hm

lemma fence_not_prefix_of_hash (t : List Char) :
    fenceMarker.isPrefixOf ('#' :: t) = false := by
  have hf : fenceMarker = backtick :: backtick :: backtick :: [] := rfl
  rw [hf]
  simp only [List.isPrefixOf]
  have : (backtick == '#') = false := by decide
  simp [this]

/-- Claim C6: for every markdown line whose stripped form matches the heading
regex with `k` leading `#` characters (1..6) and remainder `g2`, the scanner
emits (after flushing the paragraph buffer) exactly one heading block of level
`min k 3` — the clamp `min(max(level,1),3)` inside `_heading_block` changes
nothing further. Nothing is emitted when the remainder strips to empty. -/
theorem heading_level_clamped (st : ScanState) (raw : List Char) (k : Nat)
    (g2 : List Char) (hin : st.in_code = false)
    (hm : headingMatch (pyStrip (rstripNl raw)) = some (k, g2)) :
    (processLine st raw).blocks =
      (flushParagraph st).blocks ++
        (if (pyStrip g2).isEmpty then []
         else [Block.heading (min k 3) (to_rich_text (pyStrip g2))]) := by
  obtain ⟨t, ht⟩ := headingMatch_head _ _ _ hm
  obtain ⟨hk1, hk6⟩ := headingMatch_bounds _ _ _ hm
  have hclamp : min (max (min k 3) 1) 3 = min k 3 := by omega
  unfold processLine
  rw [hin]
  simp only [Bool.false_eq_true, if_false, ht, List.isEmpty_cons,
    fence_not_prefix_of_hash, Bool.false_eq_true, if_false]
  rw [ht] at hm
  rw [hm]
  by_cases hempty : (pyStrip g2).isEmpty
  · simp [hempty]
  · simp only [hempty, Bool.false_eq_true, if_false]
    simp only [_heading_block, List.append_cancel_left_eq, List.cons.injEq, and_true]
    rw [hclamp]

/-- Witness for C6: compiling the line `###### H` emits a heading of level
exactly 3. -/
theorem heading_level_clamped_witness :
    (processLine initState ("###### H".toList)).blocks
        = [Block.heading 3 (to_rich_text ("H".toList))] ∧
    markdown_to_blocks ("###### H".toList) = [Block.heading 3 [("H".toList)]] := by
  constructor
  · rw [heading_level_clamped initState ("###### H".toList) 6 ("H".toList) rfl
      (by decide)]
    decide
  · decide

/-! ## Unterminated code fences (claim C5) -/

/-- `true` exactly on code blocks. -/
def isCodeBlock : Block → Bool
  | Block.code _ _ => true
  | _ => false

lemma fence_language_ne_nil (s : List Char) : fence_language s ≠ [] := by
  unfold fence_language
  by_cases h : (pyStrip (((s.dropWhile (fun c => c == backtick)).reverse.dropWhile
      (fun c => c == backtick)).reverse)).isEmpty
  · simp only [h, if_true]
    decide
  · simp only [h, Bool.false_eq_true, if_false]
    exact fun hc => by rw [hc] at h; simp at h

lemma foldl_processLine_in_code (body : List (List Char)) :
    ∀ st : ScanState, st.in_code = true →
    (∀ l ∈ body, fenceMarker.isPrefixOf (pyStrip (rstripNl l)) = false) →
    body.foldl processLine st = { st with code_buffer := st.code_buffer ++ body } := by
  induction body with
  | nil => intro st _ _; simp
  | cons l rest ih =>
      intro st h1 h2
      have hl : processLine st l = { st with code_buffer := st.code_buffer ++ [l] } := by
        unfold processLine
        rw [h1]
        simp [h2 l (List.mem_cons_self l rest)]
      have hrec := ih { st with code_buffer := st.code_buffer ++ [l] } h1
        (fun x hx => h2 x (List.mem_cons_of_mem l hx))
      simp only [List.foldl_cons, hl, hrec]
      simp

/-- Claim C5 (amended): when the first line of the input is an opening code
fence, no later line closes it, and the post-fence text (lines joined with
newlines, trailing newlines stripped) is non-empty, compilation yields exactly
one block — a code block holding that text, tagged with the fence's language
token. (The original claim fails when the post-fence text is empty: no code
block is emitted then.) -/
theorem unterminated_fence_one_code_block (s fl : List Char)
    (body : List (List Char))
    (hsplit : pySplitlines s = fl :: body)
    (hfl : fenceMarker.isPrefixOf (pyStrip (rstripNl fl)) = true)
    (hbody : ∀ l ∈ body, fenceMarker.isPrefixOf (pyStrip (rstripNl l)) = false)
    (hne : rstripNl (joinNl body) ≠ []) :
    markdown_to_blocks s =
      [Block.code (to_rich_text (rstripNl (joinNl body)))
        (fence_language (pyStrip (rstripNl fl)))] := by
  have hsne : s.isEmpty = false := by
    cases s with
    | nil => rw [show pySplitlines [] = [] from rfl] at hsplit; exact absurd hsplit (by simp)
    | cons a t => rfl
  have hstrne : (pyStrip (rstripNl fl)).isEmpty = false := by
    rcases h : pyStrip (rstripNl fl) with _ | ⟨c, t⟩
    · rw [h] at hfl
      exact absurd hfl (by decide)
    · rfl
  have hbodyne : body.isEmpty = false := by
    cases body with
    | nil => exact absurd (by decide) hne
    | cons a t => rfl
  have hst1 : processLine initState fl =
      { initState with
          in_code := true,
          code_language := fence_language (pyStrip (rstripNl fl)),
          code_buffer := [] } := by
    simp only [processLine]
    rw [if_neg (by decide : ¬ (initState.in_code = true))]
    rw [if_neg (by rw [hstrne]; exact fun h => by simp at h)]
    rw [if_pos hfl]
    rfl
  have hfold := foldl_processLine_in_code body
      { initState with
          in_code := true,
          code_language := fence_language (pyStrip (rstripNl fl)),
          code_buffer := [] }
      rfl hbody
  have hscan : scan_blocks s =
      [_code_block (rstripNl (joinNl body)) (fence_language (pyStrip (rstripNl fl)))] := by
    unfold scan_blocks
    rw [hsplit]
    simp only [List.foldl_cons, hst1, hfold]
    unfold finishScan flushCode
    rw [if_pos rfl]
    rw [if_neg (by simp [hbodyne])]
    have hcode : (rstripNl (joinNl body)).isEmpty = false := by
      rcases h : rstripNl (joinNl body) with _ | ⟨c, t⟩
      · exact absurd h hne
      · rfl
    simp only [List.nil_append, hcode, Bool.false_eq_true, if_false]
    unfold flushParagraph
    rfl
  unfold markdown_to_blocks
  rw [hsne, hscan]
  simp only [Bool.false_eq_true, if_false, List.isEmpty_cons, if_false]
  unfold _code_block
  rw [if_neg (by
    have := fence_language_ne_nil (pyStrip (rstripNl fl))
    exact fun h => this (by rwa [List.isEmpty_iff] at h))]

/-- Counterexample for C5 as stated: the input consisting only of an opening
fence line has an unterminated code fence, yet compilation emits zero code
blocks — the scan is empty and the fallback paragraph is produced instead. -/
theorem unterminated_fence_counterexample :
    markdown_to_blocks ("```".toList) = [Block.paragraph [("```".toList)]] ∧
    (markdown_to_blocks ("```".toList)).countP isCodeBlock = 0 := by
  decide

/-- Witness for the amended C5 at the input "```python\nprint(1)". -/
theorem unterminated_fence_one_code_block_witness :
    markdown_to_blocks ("```python\nprint(1)".toList)
      = [Block.code [("print(1)".toList)] ("python".toList)] := by
  rw [unterminated_fence_one_code_block ("```python\nprint(1)".toList)
    ("```python".toList) [("print(1)".toList)] (by decide) (by decide)
    (by decide) (by decide)]
  decide

/-! ## HTML sanitizer (claim C7)

`clean_html_for_markdown` parses with BeautifulSoup (an external library,
modelled as a parse function returning a DOM forest or a failure), removes
script/style/iframe elements, neutralises data-URI images, and re-serialises.
-/

/-- A parsed HTML node: an element with tag, attributes and children, or a
text node. -/
inductive Node where
  | element (tag : List Char) (attrs : List (List Char × List Char)) (children : List Node)
  | text (s : List Char)
deriving Repr

/-- BeautifulSoup `tag.get(name, '')`: first matching attribute or empty. -/
def attrGet (attrs : List (List Char × List Char)) (name : List Char) : List Char :=
  match attrs.find? (fun kv => kv.1 == name) with
  | some kv => kv.2
  | none => []

mutual

/-- One node of the sanitizer pass: script/style elements are decomposed,
iframes are decomposed, and an img whose src starts with `data:` is replaced
by its bracketed alt text when the alt text is non-empty, otherwise
decomposed; everything else is kept with its children cleaned. -/
def cleanNode : Node → Option Node
  | Node.text s => some (Node.text s)
  | Node.element tag attrs children =>
      if tag = ("script").toList ∨ tag = ("style").toList ∨ tag = ("iframe").toList then
        none
      else if tag = ("img").toList ∧ ("data:").toList.isPrefixOf (attrGet attrs ("src").toList) then
        (if (attrGet attrs ("alt").toList).isEmpty then none
         else some (Node.text (("[Image: ").toList ++ attrGet attrs ("alt").toList ++ ("]").toList)))
      else
        some (Node.element tag attrs (cleanChildren children))

/-- The sanitizer pass over a forest of siblings. -/
def cleanChildren : List Node → List Node
  | [] => []
  | n :: rest =>
      match cleanNode n with
      | none => cleanChildren rest
      | some n2 => n2 :: cleanChildren rest

end

/-- Serialisation escaping for text nodes. -/
def escapeText (s : List Char) : List Char :=
  (s.map (fun c =>
    if c = '&' then ("&amp;").toList
    else if c = '<' then ("&lt;").toList
    else if c = '>' then ("&gt;").toList
    else [c])).flatten

/-- Serialisation escaping for attribute values. -/
def escapeAttr (s : List Char) : List Char :=
  (s.map (fun c =>
    if c = '&' then ("&amp;").toList
    else if c = '"' then ("&quot;").toList
    else [c])).flatten

/-- One serialised attribute. -/
def renderAttr (kv : List Char × List Char) : List Char :=
  ' ' :: (kv.1 ++ ('=' :: '"' :: (escapeAttr kv.2 ++ ['"'])))

mutual

/-- `str(soup)` on one node (standard tag/text serialisation). -/
def renderNode : Node → List Char
  | Node.text s => escapeText s
  | Node.element tag attrs children =>
      '<' :: (tag ++ (attrs.map renderAttr).flatten ++
        ('>' :: (renderNodes children ++ ('<' :: '/' :: (tag ++ ['>'])))))

/-- `str(soup)` on a forest of siblings. -/
def renderNodes : List Node → List Char
  | [] => []
  | n :: rest => renderNode n ++ renderNodes rest

end

/-- `clean_html_for_markdown(html)`: empty input is returned as is; a parse
failure returns the original input unchanged (fail-open); otherwise the
cleaned DOM is re-serialised. The parse function stands for BeautifulSoup. -/
def clean_html_for_markdown (parse : List Char → Except Unit (List Node))
    (html : List Char) : List Char :=
  if html.isEmpty then html
  else
    match parse html with
    | Except.error _ => html
    | Except.ok nodes => renderNodes (cleanChildren nodes)

lemma cleanChildren_cons (n : Node) (rest : List Node) :
    cleanChildren (n :: rest) =
      (match cleanNode n with
       | none => cleanChildren rest
       | some n2 => n2 :: cleanChildren rest) := rfl

lemma cleanChildren_append (a b : List Node) :
    cleanChildren (a ++ b) = cleanChildren a ++ cleanChildren b := by
  induction a with
  | nil => simp [cleanChildren]
  | cons n rest ih =>
      simp only [List.cons_append, cleanChildren]
      cases cleanNode n with
      | none => simpa using ih
      | some n2 => simp [ih]

/-- Claim C7: a data-URI img with non-empty alt text is replaced in place by
the literal text `[Image: <alt>]`; the same element with empty alt text is
removed entirely; and on parse failure the sanitizer returns its input
unchanged. -/
theorem sanitizer_img_and_fail_open
    (attrs : List (List Char × List Char)) (children pre post : List Node)
    (parse : List Char → Except Unit (List Node)) (html : List Char) (e : Unit)
    (hsrc : ("data:").toList.isPrefixOf (attrGet attrs ("src").toList) = true) :
    ((attrGet attrs ("alt").toList) ≠ [] →
      cleanChildren (pre ++ Node.element (("img").toList) attrs children :: post) =
        cleanChildren pre ++
          Node.text (("[Image: ").toList ++ attrGet attrs ("alt").toList ++ ("]").toList) ::
            cleanChildren post) ∧
    ((attrGet attrs ("alt").toList) = [] →
      cleanChildren (pre ++ Node.element (("img").toList) attrs children :: post) =
        cleanChildren pre ++ cleanChildren post) ∧
    (parse html = Except.error e → clean_html_for_markdown parse html = html) := by
  have himg : cleanNode (Node.element (("img").toList) attrs children) =
      (if (attrGet attrs ("alt").toList).isEmpty then none
       else some (Node.text (("[Image: ").toList ++ attrGet attrs ("alt").toList ++ ("]").toList))) := by
    unfold cleanNode
    rw [if_neg (by decide), if_pos (by exact ⟨rfl, hsrc⟩)]
  refine ⟨?_, ?_, ?_⟩
  · intro halt
    rw [cleanChildren_append]
    have hrepl : cleanChildren (Node.element (("img").toList) attrs children :: post) =
        Node.text (("[Image: ").toList ++ attrGet attrs ("alt").toList ++ ("]").toList) ::
          cleanChildren post := by
      rw [cleanChildren_cons, himg, if_neg (by rwa [List.isEmpty_iff])]
    rw [hrepl]
  · intro halt
    rw [cleanChildren_append]
    have hdrop : cleanChildren (Node.element (("img").toList) attrs children :: post) =
        cleanChildren post := by
      rw [cleanChildren_cons, himg, if_pos (by rwa [List.isEmpty_iff])]
    rw [hdrop]
  · intro hfail
    unfold clean_html_for_markdown
    by_cases hh : html.isEmpty
    · rw [if_pos hh]
    · rw [if_neg hh, hfail]

/-- Witness for C7: a concrete data-URI img with alt "cat" becomes
`[Image: cat]`, the altless one disappears, and a failing parse returns the
input; plus a fully concrete end-to-end sanitisation. -/
theorem sanitizer_img_and_fail_open_witness :
    cleanChildren [Node.element (("img").toList)
        [(("src").toList, ("data:image/png;base64,AAA").toList), (("alt").toList, ("cat").toList)] []] =
      [Node.text ("[Image: cat]".toList)] ∧
    cleanChildren [Node.element (("img").toList)
        [(("src").toList, ("data:image/png;base64,AAA").toList)] []] = [] ∧
    clean_html_for_markdown (fun _ => Except.error ()) ("<p>broken".toList) = ("<p>broken".toList) := by
  refine ⟨?_, ?_, ?_⟩
  · have h := (sanitizer_img_and_fail_open
      [(("src").toList, ("data:image/png;base64,AAA").toList), (("alt").toList, ("cat").toList)]
      [] [] [] (fun _ => Except.error ()) [] () (by decide)).1 (by decide)
    simpa using h
  · have h := (sanitizer_img_and_fail_open
      [(("src").toList, ("data:image/png;base64,AAA").toList)]
      [] [] [] (fun _ => Except.error ()) [] () (by decide)).2.1 (by decide)
    simpa using h
  · exact (sanitizer_img_and_fail_open
      [(("src").toList, ("data:image/png;base64,AAA").toList), (("alt").toList, ("cat").toList)]
      [] [] [] (fun _ => Except.error ()) ("<p>broken".toList) () (by decide)).2.2 rfl

/-! ## Date conversion (claim C9) -/

/-- `to_iso(dt_str)`: `None`/empty input gives `None`; otherwise the external
parser is attempted and any parse failure is caught, yielding `None`. The
parse function stands for `dateutil.parser.parse(s).isoformat()`. -/
def to_iso (parse : List Char → Except Unit (List Char)) (dt_str : List Char) :
    Option (List Char) :=
  if dt_str.isEmpty then none
  else
    match parse dt_str with
    | Except.ok s => some s
    | Except.error _ => none

/-- Split on spaces, dropping empty fields. -/
def splitSpaces (s : List Char) : List (List Char) :=
  (s.splitOn ' ').filter (fun t => ¬ t.isEmpty)

/-- Digits-only string to a number. -/
def parseDigits (s : List Char) : Except Unit Nat :=
  if s.isEmpty ∨ ¬ (s.all Char.isDigit) then Except.error ()
  else Except.ok (s.foldl (fun n c => n * 10 + (c.toNat - 48)) 0)

/-- Three-letter English month name to its number. -/
def monthNum (s : List Char) : Except Unit Nat :=
  if s = ("Jan").toList then Except.ok 1
  else if s = ("Feb").toList then Except.ok 2
  else if s = ("Mar").toList then Except.ok 3
  else if s = ("Apr").toList then Except.ok 4
  else if s = ("May").toList then Except.ok 5
  else if s = ("Jun").toList then Except.ok 6
  else if s = ("Jul").toList then Except.ok 7
  else if s = ("Aug").toList then Except.ok 8
  else if s = ("Sep").toList then Except.ok 9
  else if s = ("Oct").toList then Except.ok 10
  else if s = ("Nov").toList then Except.ok 11
  else if s = ("Dec").toList then Except.ok 12
  else Except.error ()

/-- Left-pad a decimal rendering to two digits. -/
def pad2 (n : Nat) : List Char :=
  if n < 10 then '0' :: (toString n).toList else (toString n).toList

/-- `HH:MM:SS` token. -/
def parseTime (s : List Char) : Except Unit (Nat × Nat × Nat) :=
  match s.splitOn ':' with
  | [hh, mm, ss] => do
      let h ← parseDigits hh
      let m ← parseDigits mm
      let sec ← parseDigits ss
      if h < 24 ∧ m < 60 ∧ sec < 61 then Except.ok (h, m, sec) else Except.error ()
  | _ => Except.error ()

/-- Modelled from the spec: the "best-effort generic date parser" is the
external `dateutil` library, which is not part of this repository. The model
accepts the RFC-2822 date shape used by RSS feeds
(`Wdy, DD Mon YYYY HH:MM:SS GMT`) and renders `datetime.isoformat()` output
with a `+00:00` offset; every other shape is a parse failure. -/
def dateutil_parse (s : List Char) : Except Unit (List Char) :=
  match splitSpaces s with
  | [wd, d, mon, yr, tm, tz] => do
      if wd.getLast? = some ',' then pure () else Except.error ()
      let day ← parseDigits d
      let m ← monthNum mon
      let y ← parseDigits yr
      let (hh, mm, ss) ← parseTime tm
      if (tz = ("GMT").toList ∨ tz = ("UTC").toList) ∧ 1 ≤ day ∧ day ≤ 31 then
        Except.ok ((toString y).toList ++ '-' :: pad2 m ++ '-' :: pad2 day ++
          'T' :: pad2 hh ++ ':' :: pad2 mm ++ ':' :: pad2 ss ++ ("+00:00").toList)
      else Except.error ()
  | _ => Except.error ()

/-- Claim C9: `to_iso` maps "Tue, 01 Jan 2024 00:00:00 GMT" to a non-null
ISO-8601 date string, maps the unparseable "not-a-date" to null, and maps an
absent/empty input to null — in all cases without raising (the model is a
total function and the parse failure is caught). -/
theorem to_iso_rfc2822_and_unparseable :
    to_iso dateutil_parse ("Tue, 01 Jan 2024 00:00:00 GMT".toList) =
      some ("2024-01-01T00:00:00+00:00".toList) ∧
    to_iso dateutil_parse ("not-a-date".toList) = none ∧
    to_iso dateutil_parse [] = none := by
  refine ⟨by decide, by decide, rfl⟩

/-! ## Full child-block replacement (claim C8)

`replace_page_children` first aggregates the paginated child listing (the
cursor loop over `notion.blocks.children.list`, modelled as the finite list of
returned pages), then attempts to delete every child except sub-pages and
sub-databases, then appends the new blocks in batches of 50.
-/

/-- An existing child block of the remote page: its id and type tag. -/
structure Child where
  id : List Char
  type : List Char
deriving DecidableEq, Repr

/-- The child types that are never deleted. -/
def preservedTypes : List (List Char) :=
  [("child_database").toList, ("child_page").toList]

/-- A remote block-children operation performed by `replace_page_children`. -/
inductive ChildCall where
  | delete (id : List Char)
  | append (batch : List Block)
deriving DecidableEq, Repr

/-- `_chunk_blocks(blocks, size=50)`. -/
def _chunk_blocks (blocks : List Block) (size : Nat) : List (List Block) :=
  chunkListGo blocks.length blocks size

/-- The effect of one `replace_page_children` call: which children get a
delete call (in listing order) and which batches get appended. -/
structure ReplaceOps where
  deleted : List Child
  appended : List (List Block)
deriving DecidableEq, Repr

/-- `replace_page_children(page_id, children)` over the aggregated pages of
the paginated listing: children whose type is `child_database` or
`child_page` are skipped (`continue`), every other child is deleted; then,
unless the new block list is empty, it is appended in chunks of 50. -/
def replace_page_children (pages : List (List Child)) (children : List Block) :
    ReplaceOps :=
  let existing := pages.flatten
  let deleted := existing.filter (fun c => !(decide (c.type ∈ preservedTypes)))
  let appended := if children.isEmpty then [] else _chunk_blocks children 50
  ⟨deleted, appended⟩

/-- The ordered sequence of remote calls issued by `replace_page_children`:
all deletes, then all appends. -/
def replace_calls (pages : List (List Child)) (children : List Block) :
    List ChildCall :=
  (replace_page_children pages children).deleted.map (fun c => ChildCall.delete c.id) ++
    (replace_page_children pages children).appended.map ChildCall.append

/-- `true` exactly on delete calls. -/
def isDeleteCall : ChildCall → Bool
  | ChildCall.delete _ => true
  | _ => false

/-- `true` exactly on append calls. -/
def isAppendCall : ChildCall → Bool
  | ChildCall.append _ => true
  | _ => false

lemma childCall_not_both (x : ChildCall) :
    ¬ (isDeleteCall x = true ∧ isAppendCall x = true) := by
  cases x with
  | delete _ => exact fun h => by simp [isAppendCall] at h
  | append _ => exact fun h => by simp [isDeleteCall] at h

lemma segments_ordered (L D A : List ChildCall) (hL : L = D ++ A)
    (hD : ∀ x ∈ D, isDeleteCall x = true)
    (hA : ∀ x ∈ A, isAppendCall x = true)
    (i j : Nat) (hi : i < L.length) (hj : j < L.length)
    (hdel : isDeleteCall (L.get ⟨i, hi⟩) = true)
    (happ : isAppendCall (L.get ⟨j, hj⟩) = true) : i < j := by
  subst hL
  have hiD : i < D.length := by
    by_contra hnot
    push_neg at hnot
    have hmemA : (D ++ A).get ⟨i, hi⟩ ∈ A := by
      rw [List.get_eq_getElem, List.getElem_append_right hnot]
      apply List.getElem_mem
    exact childCall_not_both _ ⟨hdel, hA _ hmemA⟩
  have hjD : D.length ≤ j := by
    by_contra hnot
    push_neg at hnot
    have hmemD : (D ++ A).get ⟨j, hj⟩ ∈ D := by
      rw [List.get_eq_getElem, List.getElem_append_left hnot]
      apply List.getElem_mem
    exact childCall_not_both _ ⟨hD _ hmemD, happ⟩
  omega

/-- Claim C8: during full child replacement, every existing child whose type
is a sub-page or sub-database is preserved (no delete call), every other
existing child receives a delete call, and every delete call precedes every
append call. -/
theorem replace_preserves_subpages (pages : List (List Child))
    (children : List Block) (child : Child) (hmem : child ∈ pages.flatten) :
    (child.type ∈ preservedTypes →
      child ∉ (replace_page_children pages children).deleted) ∧
    (child.type ∉ preservedTypes →
      child ∈ (replace_page_children pages children).deleted) ∧
    (∀ (i j : Nat) (hi : i < (replace_calls pages children).length)
        (hj : j < (replace_calls pages children).length),
      isDeleteCall ((replace_calls pages children).get ⟨i, hi⟩) = true →
      isAppendCall ((replace_calls pages children).get ⟨j, hj⟩) = true →
      i < j) := by
  refine ⟨?_, ?_, ?_⟩
  · intro hp hdel
    have h2 := (List.mem_filter.mp hdel).2
    simp only [Bool.not_eq_true', decide_eq_false_iff_not] at h2
    exact h2 hp
  · intro hp
    apply List.mem_filter.mpr
    refine ⟨hmem, ?_⟩
    simp only [Bool.not_eq_true', decide_eq_false_iff_not]
    exact hp
  · intro i j hi hj hdel happ
    exact segments_ordered (replace_calls pages children)
      ((replace_page_children pages children).deleted.map
        (fun c => ChildCall.delete c.id))
      ((replace_page_children pages children).appended.map ChildCall.append)
      (by rw [replace_calls])
      (fun x hx => by
        obtain ⟨b, _, hb⟩ := List.mem_map.mp hx
        rw [← hb]; rfl)
      (fun x hx => by
        obtain ⟨b, _, hb⟩ := List.mem_map.mp hx
        rw [← hb]; rfl)
      i j hi hj hdel happ

/-- Witness for C8: one listing page holding a sub-page child, a sub-database
child and a paragraph child; only the paragraph child is deleted, before the
single append batch. -/
theorem replace_preserves_subpages_witness :
    (Child.mk ("id1").toList ("child_page").toList)
        ∉ (replace_page_children
            [[Child.mk ("id1").toList ("child_page").toList,
              Child.mk ("id2").toList ("child_database").toList,
              Child.mk ("id3").toList ("paragraph").toList]]
            [Block.paragraph []]).deleted ∧
    (Child.mk ("id3").toList ("paragraph").toList)
        ∈ (replace_page_children
            [[Child.mk ("id1").toList ("child_page").toList,
              Child.mk ("id2").toList ("child_database").toList,
              Child.mk ("id3").toList ("paragraph").toList]]
            [Block.paragraph []]).deleted := by
  constructor
  · exact (replace_preserves_subpages
      [[Child.mk ("id1").toList ("child_page").toList,
        Child.mk ("id2").toList ("child_database").toList,
        Child.mk ("id3").toList ("paragraph").toList]]
      [Block.paragraph []]
      (Child.mk ("id1").toList ("child_page").toList) (by decide)).1 (by decide)
  · exact (replace_preserves_subpages
      [[Child.mk ("id1").toList ("child_page").toList,
        Child.mk ("id2").toList ("child_database").toList,
        Child.mk ("id3").toList ("paragraph").toList]]
      [Block.paragraph []]
      (Child.mk ("id3").toList ("paragraph").toList) (by decide)).2.1 (by decide)

/-! ## The per-entry upsert loop of `harvest_feed` (claims C2 and C3)

The external collaborators — the HTTP session, readability, markdownify,
BeautifulSoup, dateutil and the Notion client — are modelled as an `Env` of
functions; fallible ones return `Except`. The script's `try`/`except` blocks
around HTML conversion are modelled by catching those errors in place; the
backoff-wrapped Notion calls (`query_page_by_url`, `create_page`,
`update_page`) re-raise after exhausting retries, so their errors propagate.
-/

/-- Python `a or b` on strings (empty string is falsy). -/
def pyOrS (a b : List Char) : List Char :=
  if a.isEmpty then b else a

/-- Python `a or b` on optional strings produced by `to_iso`. -/
def pyOrOpt (a b : Option (List Char)) : Option (List Char) :=
  match a with
  | some s => if s.isEmpty then b else some s
  | none => b

/-- Scan for the end of a lazy `<[^<]+?>` tag match: the first `>` at offset
at least one into the remainder, with no `<` before it. -/
def tagEndGo : List Char → Nat → Option Nat
  | [], _ => none
  | c :: cs, j =>
      if c = '>' then some j
      else if c = '<' then none
      else tagEndGo cs (j + 1)

/-- After an opening `<`: the regex needs at least one non-`<` character and
then the first following `>`. -/
def findTagEnd : List Char → Option Nat
  | [] => none
  | c0 :: cs => if c0 = '<' then none else tagEndGo cs 1

/-- Fuel-driven body of `re.sub('<[^<]+?>', '', s)`; each step consumes at
least one character, so fuel = length suffices. -/
def stripTagsGo : Nat → List Char → List Char
  | 0, _ => []
  | _ + 1, [] => []
  | fuel + 1, '<' :: rest =>
      (match findTagEnd rest with
       | some j => stripTagsGo fuel (rest.drop (j + 1))
       | none => '<' :: stripTagsGo fuel rest)
  | fuel + 1, c :: rest => c :: stripTagsGo fuel rest

/-- `re.sub('<[^<]+?>', '', s)`: the last-resort manual tag stripper. -/
def stripTags (s : List Char) : List Char :=
  stripTagsGo s.length s

/-- `t.rsplit(' ', 1)[0]`: everything before the last space, or `t` itself
when it has no space. -/
def beforeLastSpace (t : List Char) : List Char :=
  if t.contains ' ' then ((t.reverse.dropWhile (fun c => !(c == ' '))).tail).reverse
  else t

/-- The summary truncation: over 200 characters, keep the first 197, break at
the last word boundary and add an ellipsis. -/
def truncate_summary (s : List Char) : List Char :=
  if 200 < s.length then beforeLastSpace (s.take 197) ++ ("...").toList else s

/-- A feed entry, restricted to the fields the script consumes. `[]` stands
for an absent or empty string field (the script collapses both with `or`);
`content` holds one `Option` per list item, `none` when the item has no
`value` key; `summary_detail` holds the `(type, value)` pair when present. -/
structure Entry where
  link : List Char
  title : List Char
  content : List (Option (List Char))
  summary_detail : Option (List Char × List Char)
  summary : List Char
  subtitle : List Char
  published : List Char
  updated : List Char
  created : List Char
deriving DecidableEq, Repr

/-- The page properties built by `build_properties`. -/
structure Props where
  title : List Char
  url : List Char
  published : Option (List Char)
  source : List Char
  summary : Option (List (List Char))
deriving DecidableEq, Repr

/-- A remote call made while processing one entry. -/
inductive RemoteCall where
  | fetchArticle (url : List Char)
  | query (url : List Char)
  | create (props : Props) (blocks : List Block)
  | update (page_id : List Char) (props : Props) (blocks : List Block)
deriving DecidableEq, Repr

/-- The configuration knobs read from the environment. -/
structure Config where
  allow_updates : Bool
  fetch_full_content : Bool
  include_summary : Bool
  max_items : Nat
deriving DecidableEq, Repr

/-- The external collaborators. `fetch` is `fetch_article_html` (which catches
request errors itself, hence `Option`); the `Except`-valued fields may raise.
`query`/`create_result`/`update_result` describe the Notion API outcome after
the bounded backoff retries. -/
structure Env where
  fetch : List Char → Option (List Char)
  readability_available : Bool
  readability_summary : List Char → Except Unit (List Char)
  html_to_markdown : List Char → Except Unit (List Char)
  parse_html : List Char → Except Unit (List Node)
  soup_get_text : List Char → Except Unit (List Char)
  dateparse : List Char → Except Unit (List Char)
  query : List Char → Except Unit (Option (List Char))
  create_result : List Char → Except Unit Unit
  update_result : List Char → Except Unit Unit

/-- `clean_html_for_markdown` then `html_to_markdown(...).strip()`: the
sanitizer never raises, markdownify may. -/
def convert_html (env : Env) (html : List Char) : Except Unit (List Char) :=
  match env.html_to_markdown (clean_html_for_markdown env.parse_html html) with
  | Except.ok md => Except.ok (pyStrip md)
  | Except.error e => Except.error e

/-- `_normalize_html_value(entry)`: truthy content values, then the
summary-detail value when its type declares HTML, then the summary. -/
def _normalize_html_value (entry : Entry) : List (List Char) :=
  (entry.content.filterMap id).filter (fun v => !v.isEmpty) ++
    (match entry.summary_detail with
     | some td =>
         if ("text/html").toList.isPrefixOf (td.1.map Char.toLower) ∧ ¬ td.2.isEmpty
         then [td.2] else []
     | none => []) ++
    (if entry.summary.isEmpty then [] else [entry.summary])

/-- The RSS-candidate loop of `extract_article_markdown`: first candidate
whose conversion succeeds with non-empty markdown; conversion errors are
caught and skipped. -/
def firstCandidate (env : Env) : List (List Char) → Option (List Char)
  | [] => none
  | c :: rest =>
      match convert_html env c with
      | Except.error _ => firstCandidate env rest
      | Except.ok md => if md.isEmpty then firstCandidate env rest else some md

/-- `extract_article_markdown(entry)`: fetch the article when a link exists
(one remote fetch call), run readability and conversion with all errors
caught, and otherwise fall back to the feed-supplied HTML candidates. -/
def extract_article_markdown (env : Env) (entry : Entry) :
    List RemoteCall × Option (List Char) :=
  let url := entry.link
  if url.isEmpty then
    ([], firstCandidate env (_normalize_html_value entry))
  else
    match env.fetch url with
    | none => ([RemoteCall.fetchArticle url], firstCandidate env (_normalize_html_value entry))
    | some html =>
        let viaFetch : Option (List Char) :=
          if html.isEmpty then none
          else if !env.readability_available then none
          else
            match env.readability_summary html with
            | Except.error _ => none
            | Except.ok article_html =>
                if article_html.isEmpty then none
                else
                  match convert_html env article_html with
                  | Except.error _ => none
                  | Except.ok md => if md.isEmpty then none else some md
        match viaFetch with
        | some md => ([RemoteCall.fetchArticle url], some md)
        | none => ([RemoteCall.fetchArticle url], firstCandidate env (_normalize_html_value entry))

/-- The harvest-loop fallback over `entry.content` items: items without a
`value` key are skipped, conversion errors are caught, and the first
non-empty markdown wins. -/
def contentLoop (env : Env) : List (Option (List Char)) → Option (List Char)
  | [] => none
  | none :: rest => contentLoop env rest
  | some v :: rest =>
      match convert_html env v with
      | Except.error _ => contentLoop env rest
      | Except.ok md => if md.isEmpty then contentLoop env rest else some md

/-- The last-resort stub document: `# {title}` plus a link-back paragraph. -/
def stub_markdown (entry : Entry) (entry_link : List Char) : List Char :=
  ("# ").toList ++ pyOrS entry.title (("Untitled").toList) ++
    ("\n\n[Read full article](").toList ++ entry_link ++ (")").toList

/-- The harvest-loop fallback chain (content items, then summary/subtitle
with a manual tag-strip on conversion failure, then the stub). -/
def fallback_markdown (env : Env) (entry : Entry) (entry_link : List Char) :
    List Char :=
  match contentLoop env entry.content with
  | some md => md
  | none =>
      let summary := pyOrS entry.summary (pyOrS entry.subtitle [])
      let md2 :=
        if summary.isEmpty then []
        else
          match convert_html env summary with
          | Except.ok md => md
          | Except.error _ => pyStrip (stripTags summary)
      if md2.isEmpty then stub_markdown entry entry_link else md2

/-- The Summary property value under `INCLUDE_SUMMARY`: plain text via the
soup with a word-boundary truncation, falling back to a manual tag strip. -/
def summary_value (cfg : Config) (env : Env) (entry : Entry) :
    Option (List (List Char)) :=
  if cfg.include_summary then
    let summary_raw := pyOrS entry.summary (pyOrS entry.subtitle [])
    let summary :=
      if summary_raw.isEmpty then []
      else
        match env.soup_get_text summary_raw with
        | Except.ok txt => truncate_summary txt
        | Except.error _ => truncate_summary (pyStrip (stripTags summary_raw))
    some (if summary.isEmpty then [] else to_rich_text summary)
  else none

/-- `build_properties(entry, source_name)`. -/
def build_properties (cfg : Config) (env : Env) (entry : Entry)
    (source_name : List Char) : Props :=
  { title := (pyOrS entry.title (pyOrS entry.link (("Untitled").toList))).take 200,
    url := entry.link,
    published := pyOrOpt (to_iso env.dateparse entry.published)
      (pyOrOpt (to_iso env.dateparse entry.updated) (to_iso env.dateparse entry.created)),
    source := source_name.take 90,
    summary := summary_value cfg env entry }

/-- The outcome of one entry, matching the three counters. -/
inductive Outcome where
  | new
  | updated
  | skipped
deriving DecidableEq, Repr

/-- The per-feed counters. -/
structure Counts where
  count_new : Nat
  count_updated : Nat
  count_skipped : Nat
deriving DecidableEq, Repr

/-- Bump the counter of one outcome. -/
def addOutcome : Outcome → Counts → Counts
  | Outcome.new, c => { c with count_new := c.count_new + 1 }
  | Outcome.updated, c => { c with count_updated := c.count_updated + 1 }
  | Outcome.skipped, c => { c with count_skipped := c.count_skipped + 1 }

/-- One iteration of the entry loop in `harvest_feed`: skip link-less entries
before any remote work; otherwise extract content, build properties and
blocks, look the URL up, and create / update / skip. The query, create and
update calls may fail (after retries), and nothing inside the loop catches
that. -/
def process_entry (cfg : Config) (env : Env) (src : List Char) (entry : Entry) :
    List RemoteCall × Except Unit Outcome :=
  if entry.link.isEmpty then ([], Except.ok Outcome.skipped)
  else
    let fetched :=
      if cfg.fetch_full_content then extract_article_markdown env entry
      else (([] : List RemoteCall), (none : Option (List Char)))
    let article_markdown :=
      match fetched.2 with
      | some md => if md.isEmpty then fallback_markdown env entry entry.link else md
      | none => fallback_markdown env entry entry.link
    let props := build_properties cfg env entry src
    let article_blocks :=
      if article_markdown.isEmpty then [] else markdown_to_blocks article_markdown
    let calls := fetched.1 ++ [RemoteCall.query entry.link]
    match env.query entry.link with
    | Except.error e => (calls, Except.error e)
    | Except.ok none =>
        (calls ++ [RemoteCall.create props article_blocks],
          match env.create_result entry.link with
          | Except.error e => Except.error e
          | Except.ok _ => Except.ok Outcome.new)
    | Except.ok (some page_id) =>
        if cfg.allow_updates then
          (calls ++ [RemoteCall.update page_id props article_blocks],
            match env.update_result page_id with
            | Except.error e => Except.error e
            | Except.ok _ => Except.ok Outcome.updated)
        else (calls, Except.ok Outcome.skipped)

/-- The entry loop: entries are processed in order and an uncaught exception
aborts the loop, discarding the remaining entries. -/
def harvest_entries (cfg : Config) (env : Env) (src : List Char) :
    List Entry → List RemoteCall × Except Unit Counts
  | [] => ([], Except.ok ⟨0, 0, 0⟩)
  | e :: rest =>
      match process_entry cfg env src e with
      | (calls, Except.error err) => (calls, Except.error err)
      | (calls, Except.ok oc) =>
          match harvest_entries cfg env src rest with
          | (calls2, Except.error err) => (calls ++ calls2, Except.error err)
          | (calls2, Except.ok c) => (calls ++ calls2, Except.ok (addOutcome oc c))

/-- `harvest_feed`, given the already-parsed entries and source name: process
at most `max_items` entries and report new+updated. -/
def harvest_feed (cfg : Config) (env : Env) (src : List Char)
    (entries : List Entry) : List RemoteCall × Except Unit Nat :=
  match harvest_entries cfg env src (entries.take cfg.max_items) with
  | (calls, Except.error e) => (calls, Except.error e)
  | (calls, Except.ok c) => (calls, Except.ok (c.count_new + c.count_updated))

/-- The contribution of one feed to the total in `main`: its upsert count,
or nothing when the feed failed (the `except` branch logs and moves on). -/
def feed_total (cfg : Config) (env : Env) (f : List Char × List Entry) : Nat :=
  match (harvest_feed cfg env f.1 f.2).2 with
  | Except.ok n => n
  | Except.error _ => 0

/-- `main()`: every feed is attempted inside `try`, so a feed failure only
skips that feed's contribution. -/
def main_run (cfg : Config) (env : Env) (feeds : List (List Char × List Entry)) :
    Nat :=
  feeds.foldl (fun total f => total + feed_total cfg env f) 0

/-- `true` exactly on create calls. -/
def isCreateCall : RemoteCall → Bool
  | RemoteCall.create _ _ => true
  | _ => false

/-- `true` exactly on update calls. -/
def isUpdateCall : RemoteCall → Bool
  | RemoteCall.update _ _ _ => true
  | _ => false

lemma extract_article_markdown_calls (env : Env) (entry : Entry) :
    (extract_article_markdown env entry).1 = [] ∨
    (extract_article_markdown env entry).1 = [RemoteCall.fetchArticle entry.link] := by
  unfold extract_article_markdown
  by_cases hurl : entry.link.isEmpty
  · left
    simp [hurl]
  · right
    simp only [hurl, Bool.false_eq_true, if_false]
    rcases hf : env.fetch entry.link with _ | html
    · rfl
    · dsimp only
      split <;> rfl

lemma fetched_calls_no_upsert (cfg : Config) (env : Env) (entry : Entry) :
    ((if cfg.fetch_full_content then extract_article_markdown env entry
      else (([] : List RemoteCall), (none : Option (List Char)))).1.countP isCreateCall = 0) ∧
    ((if cfg.fetch_full_content then extract_article_markdown env entry
      else (([] : List RemoteCall), (none : Option (List Char)))).1.countP isUpdateCall = 0) := by
  by_cases h : cfg.fetch_full_content
  · simp only [h, if_true]
    rcases extract_article_markdown_calls env entry with h2 | h2 <;> rw [h2] <;>
      exact ⟨rfl, rfl⟩
  · simp [h]

/-- Claim C2: per-entry decision of the upsert loop. An entry with no link is
counted as skipped with no remote call; when no existing page matches the
link, the create path runs (exactly one create call, no update); when a match
exists and updates are allowed, the replace path runs exactly once and the
create path never; when a match exists and updates are disallowed, neither
create nor update runs and the entry is counted as skipped. -/
theorem per_entry_upsert_decision (cfg : Config) (env : Env) (src : List Char)
    (entry : Entry) :
    (entry.link = [] →
      process_entry cfg env src entry = ([], Except.ok Outcome.skipped)) ∧
    (entry.link ≠ [] → env.query entry.link = Except.ok none →
      (process_entry cfg env src entry).1.countP isCreateCall = 1 ∧
      (process_entry cfg env src entry).1.countP isUpdateCall = 0) ∧
    (entry.link ≠ [] → ∀ pid, env.query entry.link = Except.ok (some pid) →
      cfg.allow_updates = true →
      (process_entry cfg env src entry).1.countP isUpdateCall = 1 ∧
      (process_entry cfg env src entry).1.countP isCreateCall = 0) ∧
    (entry.link ≠ [] → ∀ pid, env.query entry.link = Except.ok (some pid) →
      cfg.allow_updates = false →
      (process_entry cfg env src entry).1.countP isUpdateCall = 0 ∧
      (process_entry cfg env src entry).1.countP isCreateCall = 0 ∧
      (process_entry cfg env src entry).2 = Except.ok Outcome.skipped) := by
  have hfc := fetched_calls_no_upsert cfg env entry
  refine ⟨?_, ?_, ?_, ?_⟩
  · intro hlink
    have he : entry.link.isEmpty = true := by rw [hlink]; rfl
    simp [process_entry, he]
  · intro hlink hq
    have he : entry.link.isEmpty = false := by
      rcases hl : entry.link with _ | ⟨a, t⟩
      · exact absurd hl hlink
      · rfl
    simp only [process_entry, he, Bool.false_eq_true, if_false, hq]
    constructor
    · simp [List.countP_append, List.countP_cons, hfc.1, isCreateCall]
    · simp [List.countP_append, List.countP_cons, hfc.2, isUpdateCall]
  · intro hlink pid hq hup
    have he : entry.link.isEmpty = false := by
      rcases hl : entry.link with _ | ⟨a, t⟩
      · exact absurd hl hlink
      · rfl
    simp only [process_entry, he, Bool.false_eq_true, if_false, hq, hup, if_true]
    constructor
    · simp [List.countP_append, List.countP_cons, hfc.2, isUpdateCall]
    · simp [List.countP_append, List.countP_cons, hfc.1, isCreateCall]
  · intro hlink pid hq hup
    have he : entry.link.isEmpty = false := by
      rcases hl : entry.link with _ | ⟨a, t⟩
      · exact absurd hl hlink
      · rfl
    simp only [process_entry, he, Bool.false_eq_true, if_false, hq, hup,
      Bool.false_eq_true, if_false]
    refine ⟨?_, ?_, by trivial⟩
    · simp [List.countP_append, List.countP_cons, hfc.2, isUpdateCall]
    · simp [List.countP_append, List.countP_cons, hfc.1, isCreateCall]

/-! Concrete fixtures used to evaluate the upsert and failure theorems. -/

/-- An environment in which conversion collaborators all fail (irrelevant to
the decision logic) and the Notion lookup finds nothing. -/
def env_base : Env :=
  { fetch := fun _ => none,
    readability_available := false,
    readability_summary := fun _ => Except.error (),
    html_to_markdown := fun _ => Except.error (),
    parse_html := fun _ => Except.error (),
    soup_get_text := fun _ => Except.error (),
    dateparse := fun _ => Except.error (),
    query := fun _ => Except.ok none,
    create_result := fun _ => Except.ok (),
    update_result := fun _ => Except.ok () }

/-- Lookup finds an existing page for url "b" only. -/
def env_upsert : Env :=
  { env_base with
      query := fun url =>
        if url = ("b").toList then Except.ok (some (("pid").toList))
        else Except.ok none }

/-- Lookup raises (retries exhausted) for url "a", finds nothing otherwise. -/
def env_fail_a : Env :=
  { env_base with
      query := fun url =>
        if url = ("a").toList then Except.error () else Except.ok none }

/-- Updates allowed, no full-content fetch, no summary property. -/
def cfg_updates : Config := ⟨true, false, false, 30⟩

/-- Updates disallowed. -/
def cfg_noupdates : Config := ⟨false, false, false, 30⟩

/-- An entry with no link. -/
def entry_nolink : Entry := ⟨[], [], [], none, [], [], [], [], []⟩

/-- An entry with link "a" and nothing else. -/
def entry_a : Entry := ⟨("a").toList, [], [], none, [], [], [], [], []⟩

/-- An entry with link "b" and nothing else. -/
def entry_b : Entry := ⟨("b").toList, [], [], none, [], [], [], [], []⟩

/-- Witness for C2: all four decision branches evaluated on concrete entries
against a store holding a page for "b" only. -/
theorem per_entry_upsert_decision_witness :
    process_entry cfg_updates env_upsert (("src").toList) entry_nolink =
      ([], Except.ok Outcome.skipped) ∧
    ((process_entry cfg_updates env_upsert (("src").toList) entry_a).1.countP
        isCreateCall = 1 ∧
     (process_entry cfg_updates env_upsert (("src").toList) entry_a).1.countP
        isUpdateCall = 0) ∧
    ((process_entry cfg_updates env_upsert (("src").toList) entry_b).1.countP
        isUpdateCall = 1 ∧
     (process_entry cfg_updates env_upsert (("src").toList) entry_b).1.countP
        isCreateCall = 0) ∧
    ((process_entry cfg_noupdates env_upsert (("src").toList) entry_b).1.countP
        isUpdateCall = 0 ∧
     (process_entry cfg_noupdates env_upsert (("src").toList) entry_b).1.countP
        isCreateCall = 0 ∧
     (process_entry cfg_noupdates env_upsert (("src").toList) entry_b).2 =
        Except.ok Outcome.skipped) := by
  refine ⟨?_, ?_, ?_, ?_⟩
  · exact (per_entry_upsert_decision cfg_updates env_upsert (("src").toList)
      entry_nolink).1 rfl
  · exact (per_entry_upsert_decision cfg_updates env_upsert (("src").toList)
      entry_a).2.1 (by decide) (by decide)
  · exact (per_entry_upsert_decision cfg_updates env_upsert (("src").toList)
      entry_b).2.2.1 (by decide) (("pid").toList) (by decide) rfl
  · exact (per_entry_upsert_decision cfg_noupdates env_upsert (("src").toList)
      entry_b).2.2.2 (by decide) (("pid").toList) (by decide) rfl

/-! ### Claim C3: where entry failures are caught -/

/-- Counterexample for C3 as stated: with the lookup for "a" failing, the
error escapes the entry loop (the feed result is the error), the second entry
is never looked up — its query call is absent from the trace — even though
processing it alone would run the create path. Entry failures are thus not
caught at the entry loop and processing of subsequent entries of the same
feed does not continue. -/
theorem entry_failure_not_caught_counterexample :
    (harvest_entries cfg_updates env_fail_a (("src").toList) [entry_a, entry_b]).2 =
      Except.error () ∧
    (harvest_entries cfg_updates env_fail_a (("src").toList) [entry_a, entry_b]).1 =
      [RemoteCall.query (("a").toList)] ∧
    RemoteCall.query (("b").toList) ∉
      (harvest_entries cfg_updates env_fail_a (("src").toList) [entry_a, entry_b]).1 ∧
    (process_entry cfg_updates env_fail_a (("src").toList) entry_b).1.countP
      isCreateCall = 1 := by
  decide

lemma foldl_add_shift {α : Type} (g : α → Nat) (l : List α) :
    ∀ a : Nat, l.foldl (fun t x => t + g x) a = a + l.foldl (fun t x => t + g x) 0 := by
  induction l with
  | nil => intro a; simp
  | cons x xs ih =>
      intro a
      simp only [List.foldl_cons]
      rw [ih (a + g x), ih (0 + g x)]
      omega

/-- Claim C3 (amended): a failure raised by the remote calls while processing
one entry propagates out of the entry loop — the feed's result is that error
and the remaining entries of the feed are abandoned (only the failing entry's
calls appear). The failure is caught at the feed boundary instead: `main`
always adds the failed feed's zero contribution and continues with the
remaining feeds. (Only HTML-conversion failures are caught inside the entry
body.) -/
theorem entry_failure_feed_boundary (cfg : Config) (env : Env) (src : List Char)
    (e : Entry) (rest : List Entry) (err : Unit)
    (hfail : (process_entry cfg env src e).2 = Except.error err) :
    harvest_entries cfg env src (e :: rest) =
      ((process_entry cfg env src e).1, Except.error err) ∧
    (∀ (f : List Char × List Entry) (feeds : List (List Char × List Entry)),
      main_run cfg env (f :: feeds) = feed_total cfg env f + main_run cfg env feeds) := by
  constructor
  · rcases hp : process_entry cfg env src e with ⟨calls, res⟩
    have hres : res = Except.error err := by
      rw [hp] at hfail
      exact hfail
    subst hres
    simp [harvest_entries, hp]
  · intro f feeds
    unfold main_run
    simp only [List.foldl_cons]
    rw [foldl_add_shift (feed_total cfg env) feeds (0 + feed_total cfg env f)]
    simp

/-- Witness for the amended C3: the failing feed aborts after the first
entry's query, and `main` still sums the second feed's contribution. -/
theorem entry_failure_feed_boundary_witness :
    harvest_entries cfg_updates env_fail_a (("src").toList) [entry_a, entry_b] =
      ((process_entry cfg_updates env_fail_a (("src").toList) entry_a).1,
        Except.error ()) ∧
    main_run cfg_updates env_fail_a
        [((("src").toList), [entry_a, entry_b]), ((("s2").toList), [entry_b])] =
      feed_total cfg_updates env_fail_a ((("src").toList), [entry_a, entry_b]) +
        main_run cfg_updates env_fail_a [((("s2").toList), [entry_b])] := by
  constructor
  · exact (entry_failure_feed_boundary cfg_updates env_fail_a (("src").toList)
      entry_a [entry_b] () (by decide)).1
  · exact (entry_failure_feed_boundary cfg_updates env_fail_a (("src").toList)
      entry_a [entry_b] () (by decide)).2 _ _

end RssNotion
